import Mathlib

/-!
Verification development for the strands-demo automation pipeline.

Shallow embedding, translated from the Python sources, of:
* the container runner's host/container path translation and its
  run/cleanup discipline (`app/runners.py`),
* the run observability tracker (`app/observability.py`),
* the pipeline orchestrator's result assembly and success determination
  (`app/orchestrator.py`),
* the file-edit application and path containment (`app/tools/code_tools.py`),

together with theorems settling the specification's claims about them.
-/

namespace StrandsDemo

/-! ## Path translation (`app/runners.py`, `DockerRunner._to_host_path`)

Paths are modelled as lists of characters (`PathStr`), i.e. Python strings.
`os.path.realpath` is modelled as the identity: every path the mapping rules
address is an already-normalized absolute path without symlinks.  `os.sep`
is `'/'`.
-/

abbrev PathStr := List Char

def sepChar : Char := '/'

/-- `os.path.relpath rp cb` as invoked in `_to_host_path`: it is only reached
when `rp` equals `cb` or lies strictly under `cb`; on those inputs it returns
`"."` in the equal case and the suffix after `cb ++ "/"` otherwise. -/
def relpath_under (rp cb : PathStr) : PathStr :=
  if rp == cb then ['.'] else rp.drop (cb.length + 1)

def emptyPathMsg : String := "Empty path given to DockerRunner._to_host_path"

def noHostBaseMsg : String :=
  "Path is under the container workspace, but HOST_WORKSPACE_DIR is not set"

/-- Translation of `DockerRunner._to_host_path`.  `cbase`/`hbase` are the
configured container and host workspace bases (`none` models a falsy/unset
environment value).  Returns `.error` where the Python code raises
`ValueError`. -/
def to_host_path (cbase hbase : Option PathStr) (path : PathStr) :
    Except String PathStr :=
  if path = [] then
    .error emptyPathMsg
  else
    -- `rp = os.path.realpath(path)` is modelled as `path` itself
    match cbase with
    | none => .ok path
    | some cb =>
      if path == cb || (cb ++ [sepChar]).isPrefixOf path then
        match hbase with
        | none => .error noHostBaseMsg
        | some hb =>
          if relpath_under path cb == ['.'] then .ok hb
          else .ok (hb ++ [sepChar] ++ relpath_under path cb)
      else
        .ok path

/-! ## Container execution (`app/runners.py`, `DockerRunner.run`)

The Docker daemon is modelled as an oracle (`DockerEnv`) choosing the outcome
of `containers.run` and of `container.wait`; the container's lifecycle is
tracked explicitly.  The best-effort image pull has no observable effect on
this state (its failures are swallowed by the code).  `container.remove` is
modelled as effective. -/

inductive StartRes where
  | started
  | apiErr (expl : String)
deriving DecidableEq

inductive WaitRes where
  | exited (code : Int)
  | apiErr (expl : String)
  | timedOut
deriving DecidableEq

structure DockerEnv where
  startRes : StartRes
  waitRes : WaitRes
  logsText : String
deriving DecidableEq

inductive RunExc where
  | valueError (msg : String)
  | apiError (expl : String)
  | waitTimeout
deriving DecidableEq

structure ContainerState where
  started : Bool
  removeCalls : Nat
  existsNow : Bool
deriving DecidableEq

/-- The `finally:` block of `DockerRunner.run`: force-remove the container
when one was created (`container is not None`). -/
def finallyRemove (c : ContainerState) : ContainerState :=
  if c.started then { c with removeCalls := c.removeCalls + 1, existsNow := false } else c

structure RunOutcome where
  result : Except RunExc (Int × String)
  container : ContainerState

/-- Translation of `DockerRunner.run`: path translation, container start,
wait (with timeout), log collection, APIError classification, and the
`finally:` cleanup applied on every exit path. -/
def docker_run (cbase hbase : Option PathStr) (repo_dir : PathStr)
    (env : DockerEnv) : RunOutcome :=
  let c0 : ContainerState := ⟨false, 0, false⟩
  match to_host_path cbase hbase repo_dir with
  | .error m => ⟨.error (.valueError m), finallyRemove c0⟩
  | .ok _host =>
    match env.startRes with
    | .apiErr expl => ⟨.error (.apiError expl), finallyRemove c0⟩
    | .started =>
      let c1 : ContainerState := ⟨true, 0, true⟩
      match env.waitRes with
      | .exited code => ⟨.ok (code, env.logsText), finallyRemove c1⟩
      | .apiErr expl => ⟨.error (.apiError expl), finallyRemove c1⟩
      | .timedOut => ⟨.error .waitTimeout, finallyRemove c1⟩

/-! ## Run observability tracker (`app/observability.py`, class `Observability`)

Python dictionaries are heap objects: the tracker's timeline list holds
*references* to entry dicts, and `snapshot` copies the lists
(`list(self.timeline)`) but not the entries they point to.  The model makes
this explicit: `heap` is the store of every timeline-entry object ever
allocated (an index is an object identity), `timeline` is the tracker's list
of references, and a snapshot copies the reference list.  Timestamps
(`time.time()` values) are explicit rational inputs.  The OTEL spans are
modelled by their open/closed flags plus the list of events attached to
them; span operations never raise. -/

/-- `round(x, 3)` on a rational timestamp difference. -/
def round3 (q : ℚ) : ℚ := (round (q * 1000) : ℤ) / 1000

structure TimelineEntry where
  stage : String
  start : ℚ
  /-- the `"end"` key (`end` is a Lean keyword) -/
  endT : Option ℚ := none
  duration : Option ℚ := none
  preview : Option String := none
deriving DecidableEq

structure ConvMsg where
  role : String
  content : String
  time : ℚ
deriving DecidableEq

structure SpanEvent where
  name : String
  role : String
  content : String
deriving DecidableEq

structure ObsState where
  status : String
  current_stage : Option String
  /-- store of all timeline-entry objects ever allocated -/
  heap : List TimelineEntry
  /-- `self.timeline`: references into `heap` -/
  timeline : List Nat
  conversation : List ConvMsg
  started_at : Option ℚ
  runSpanOpen : Bool
  stageSpanOpen : Bool
  events : List SpanEvent
deriving DecidableEq

def initObs : ObsState :=
  { status := "idle"
    current_stage := none
    heap := []
    timeline := []
    conversation := []
    started_at := none
    runSpanOpen := false
    stageSpanOpen := false
    events := [] }

/-- `Observability.reset`: clears the run-local state (the old entry objects
keep existing on the heap; only the reference list is replaced). -/
def obs_reset (st : ObsState) : ObsState :=
  { st with
    status := "idle"
    current_stage := none
    timeline := []
    conversation := []
    started_at := none }

/-- The state `Observability.start_run` would produce if its `reset()` call
returned: spans defensively closed, state cleared, start time recorded,
status running, fresh run span.  The real call never gets that far (see
`start_run`); this completed transition is kept only as an
over-approximation in the trace model: admitting the unreachable transition
can only enlarge the set of states the timeline invariant must cover. -/
def start_run_completed (t : ℚ) (st : ObsState) : ObsState :=
  { obs_reset st with
    started_at := some t
    status := "running"
    runSpanOpen := true
    stageSpanOpen := false }

/-- `Observability.start_run` in the source acquires the tracker's
non-reentrant `threading.Lock` and, still holding it, calls `self.reset()`,
which attempts to acquire the same lock again (observability.py lines 109,
122 and 100): the call permanently deadlocks.  `none` models that no
post-state is ever produced — the method never returns. -/
def start_run (_t : ℚ) (_st : ObsState) : Option ObsState := none

/-- `Observability.stage_start`: allocates a new timeline entry
`{stage, start}` and appends a reference to it; closes any previous stage
span and opens a new one. -/
def stage_start (name : String) (t : ℚ) (st : ObsState) : ObsState :=
  { st with
    current_stage := some name
    heap := st.heap ++ [{ stage := name, start := t }]
    timeline := st.timeline ++ [st.heap.length]
    stageSpanOpen := true }

/-- Whether `stage_end name` hits the in-place-update branch:
`self.timeline and self.timeline[-1]["stage"] == name`. -/
def stageEndMatches (st : ObsState) (name : String) : Bool :=
  match st.timeline.getLast? with
  | none => false
  | some i =>
    match st.heap[i]? with
    | none => false
    | some e => e.stage == name

/-- The in-place mutation `stage_end` performs on the matched entry object:
fill in `end`, `duration` (rounded to milliseconds) and, when given, the
`preview`. -/
def closeEntry (t : ℚ) (preview : Option String) (e : TimelineEntry) :
    TimelineEntry :=
  { e with
    endT := some t
    duration := some (round3 (t - e.start))
    preview := match preview with
               | some p => some p
               | none => e.preview }

/-- The heap after `stage_end`: if the last timeline entry's stage matches
the given name, that entry object is updated in place; otherwise the store
is untouched. -/
def stage_end_heap (name : String) (preview : Option String) (t : ℚ)
    (st : ObsState) : List TimelineEntry :=
  match st.timeline.getLast? with
  | none => st.heap
  | some i =>
    match st.heap[i]? with
    | none => st.heap
    | some e =>
      if e.stage == name then st.heap.set i (closeEntry t preview e)
      else st.heap

/-- `Observability.stage_end`: if the last timeline entry's stage matches,
mutate that entry object in place (fill `end`, `duration`, optionally
`preview`); otherwise the timeline is left alone.  Clears current-stage and
closes the stage span either way. -/
def stage_end (name : String) (preview : Option String) (t : ℚ)
    (st : ObsState) : ObsState :=
  { st with
    heap := stage_end_heap name preview t st
    current_stage := none
    stageSpanOpen := false }

/-- The span-event payload bound in `add_message`:
`content if len(content) <= 2048 else content[:2048] + "…"`. -/
def truncate_content (s : String) : String :=
  if s.length ≤ 2048 then s else String.mk (s.data.take 2048) ++ "…"

/-- `Observability.add_message`: appends the *full* content to the stored
conversation log; the bounded copy goes only into the span event (attached
to the current stage span or the run span, when one is open). -/
def add_message (role content : String) (t : ℚ) (st : ObsState) : ObsState :=
  { st with
    conversation := st.conversation
        ++ [{ role := role, content := content, time := t }]
    events :=
      if st.stageSpanOpen || st.runSpanOpen then
        st.events
          ++ [{ name := "message", role := role
                content := truncate_content content }]
      else st.events }

/-- `Observability.finish_run`: sets the status, clears current-stage and
closes any open spans.  Timeline entries are not touched. -/
def finish_run (status : String) (_t : ℚ) (st : ObsState) : ObsState :=
  { st with
    status := status
    current_stage := none
    stageSpanOpen := false
    runSpanOpen := false }

inductive ObsOp where
  | startRun (t : ℚ)
  | stageStart (name : String) (t : ℚ)
  | stageEnd (name : String) (preview : Option String) (t : ℚ)
  | addMessage (role content : String) (t : ℚ)
  | finishRun (status : String) (t : ℚ)
deriving DecidableEq

def applyObs (st : ObsState) : ObsOp → ObsState
  | .startRun t => start_run_completed t st
  | .stageStart n t => stage_start n t st
  | .stageEnd n p t => stage_end n p t st
  | .addMessage r c t => add_message r c t st
  | .finishRun s t => finish_run s t st

def opTime : ObsOp → ℚ
  | .startRun t => t
  | .stageStart _ t => t
  | .stageEnd _ _ t => t
  | .addMessage _ _ t => t
  | .finishRun _ t => t

/-- A run of the tracker from its initial state. -/
def runObs (ops : List ObsOp) : ObsState := ops.foldl applyObs initObs

/-- `time.time()` never goes backwards along a run: each op's timestamp is
at least the previous one's (and at least the lower bound `t`). -/
def timesMonoB : ℚ → List ObsOp → Bool
  | _, [] => true
  | t, op :: rest => decide (t ≤ opTime op) && timesMonoB (opTime op) rest

/-- A closed timeline entry is well-formed: `end >= start` and
`duration == round(end - start, 3)`. -/
def entryClosedOkB (e : TimelineEntry) : Bool :=
  match e.endT with
  | none => true
  | some z => decide (e.start ≤ z) && e.duration == some (round3 (z - e.start))

/-- Invariant carried along a run: every allocated entry started no later
than `t` and, if closed, is well-formed. -/
def heapOkB (t : ℚ) (st : ObsState) : Bool :=
  st.heap.all fun e => decide (e.start ≤ t) && entryClosedOkB e

/-- `Observability.snapshot`: copies the scalar fields and the two lists.
The timeline copy is a copy of the *reference* list (`list(self.timeline)`);
conversation messages are never mutated in place, so they are modelled by
value. -/
structure Snapshot where
  status : String
  current_stage : Option String
  timeline : List Nat
  conversation : List ConvMsg
  started_at : Option ℚ
deriving DecidableEq

def snapshot (st : ObsState) : Snapshot :=
  ⟨st.status, st.current_stage, st.timeline, st.conversation, st.started_at⟩

/-- What a caller holding snapshot `sn` observes for its timeline when the
tracker's heap has evolved to the one of `st`: each held reference is read
back against the current store. -/
def snapshotView (sn : Snapshot) (st : ObsState) : List (Option TimelineEntry) :=
  sn.timeline.map fun i => st.heap[i]?

/-- Concrete tracker state used in the snapshot-aliasing counterexample:
the `prepare_workspace` stage opened directly on the freshly constructed
tracker (`__init__` calls `reset()` without holding the lock, so
construction completes; `stage_start` takes the lock once — this trace is
executable in the source). -/
def c6state : ObsState := stage_start "prepare_workspace" 1 initObs

/-- A 5000-character message. -/
def bigMsg : String := String.mk (List.replicate 5000 'a')

/-- Tracker state after adding a 5000-character message to the freshly
constructed tracker (an executable trace: `add_message` takes the lock
once). -/
def c7state : ObsState := add_message "assistant" bigMsg 1 initObs

/-- A small completed run used as a concrete witness trace. -/
def c8ops : List ObsOp :=
  [.startRun 0, .stageStart "plan_changes" 1,
   .stageEnd "plan_changes" (some "preview") 2, .finishRun "success" 3]

/-! ## Decimal rendering (`str(exit_code)` in the orchestrator)

`py_nat_digits n` is the little-endian list of decimal digits of `n` (empty
for 0), computed with structural fuel so that it evaluates by kernel
reduction; it agrees with Mathlib's `Nat.digits 10` (proved below). -/

def natDigitsAux : Nat → Nat → List Nat
  | 0, _ => []
  | _ + 1, 0 => []
  | fuel + 1, n + 1 => ((n + 1) % 10) :: natDigitsAux fuel ((n + 1) / 10)

def py_nat_digits (n : Nat) : List Nat := natDigitsAux n n

/-- Python `str` of a natural number. -/
def py_nat_str (n : Nat) : String :=
  if n = 0 then "0"
  else String.mk ((py_nat_digits n).reverse.map Nat.digitChar)

/-- Python `str` of an int. -/
def py_int_str (n : Int) : String :=
  if n < 0 then "-" ++ py_nat_str n.natAbs else py_nat_str n.toNat

/-- Python `str(exit_code)` where `exit_code` is an int or `None`. -/
def py_str_exit : Option Int → String
  | none => "None"
  | some n => py_int_str n

/-! ## Pipeline orchestrator (`app/orchestrator.py`, `run_requirement_pipeline`)

The external collaborators (requirement loader, git, the two LLM stages, the
container runner, GitHub) are oracles in a `PipelineEnv`: each stage either
returns a value or raises (`Except.error` carries `str(exception)`).  Python
values appearing in the result dict are modelled by `PyVal`; the result dict
itself is an association list in the source's literal key order.  Durations
and elapsed times are oracle-provided rationals. -/

inductive PyVal where
  | pyNone
  | pyStr (s : String)
  | pyInt (n : Int)
  | pyBool (b : Bool)
  | pyRat (q : ℚ)
  | pyList (l : List PyVal)
  | pyDict (d : List (String × PyVal))

abbrev PyDict := List (String × PyVal)

def dictKeys (d : PyDict) : List String := d.map Prod.fst

def dictGet (d : PyDict) (k : String) : Option PyVal :=
  (d.find? (fun kv => kv.1 == k)).map Prod.snd

/-- `RequirementLoadError`: `where`, `message` and the structured
field-level validation errors (`loc` stands for the `where` attribute,
which is a Lean keyword). -/
structure LoadErr where
  loc : String
  message : String
  validation_errors : List PyVal

/-- The requirement fields the orchestrator reads after a successful load. -/
structure ReqInfo where
  repo_url : String
  branch_name : String
  has_github : Bool
  create_pr : Bool
  has_token : Bool

/-- `build_and_test`'s result: exit status (`None`-tolerant) and logs. -/
structure TestResult where
  status : Option Int
  logs : String

structure PipelineEnv where
  loadRes : Except LoadErr ReqInfo
  prepareRes : Except String PyVal
  planRes : Except String PyVal
  genRes : Except String PyVal
  applyRes : Except String PyVal
  testRes : Except String (Option TestResult)
  commitRes : Except String (Option String)
  prRes : Except String (Option String)
  stageDur : String → ℚ
  elapsed : ℚ

/-- `(test_result or {}).get("status")`. -/
def pipe_exit_code (tr : Option TestResult) : Option Int :=
  tr.bind TestResult.status

/-- `str(exit_code) in ("0", "None") or exit_code == 0`. -/
def pipeline_success (tr : Option TestResult) : Bool :=
  (py_str_exit (pipe_exit_code tr) == "0"
      || py_str_exit (pipe_exit_code tr) == "None")
    || pipe_exit_code tr == some 0

/-- `"success" if success else "error"`. -/
def pipeline_status (tr : Option TestResult) : String :=
  if pipeline_success tr then "success" else "error"

def pyOfOptInt : Option Int → PyVal
  | none => .pyNone
  | some n => .pyInt n

def pyOfOptStr : Option String → PyVal
  | none => .pyNone
  | some s => .pyStr s

/-- `(test_result or {}).get("logs", "")`. -/
def test_logs_val : Option TestResult → PyVal
  | none => .pyStr ""
  | some t => .pyStr t.logs

/-- `build_and_test`'s return dict, for the stage preview. -/
def testResultVal : Option TestResult → PyVal
  | none => .pyNone
  | some t => .pyDict [("status", pyOfOptInt t.status), ("logs", .pyStr t.logs)]

/-- The result dict of the `except RequirementLoadError` branch, keys in
source order. -/
def load_fail_result (e : LoadErr) (elapsed : ℚ) (verbose : Bool)
    (tl : List PyVal) : PyDict :=
  [("status", .pyStr "error"),
   ("where", .pyStr e.loc),
   ("message", .pyStr e.message),
   ("validation_errors", .pyList e.validation_errors),
   ("branch", .pyNone),
   ("repo", .pyNone),
   ("pr_url", .pyNone),
   ("test_exit_code", .pyNone),
   ("test_logs", .pyNone),
   ("applied", .pyNone),
   ("elapsed_seconds", .pyRat elapsed),
   ("timeline", if verbose then .pyList tl else .pyNone)]

/-- The result dict of the success path, keys in source order. -/
def success_result (status branch repo : String) (pr_url : Option String)
    (tr : Option TestResult) (applied : PyVal) (elapsed : ℚ) (verbose : Bool)
    (tl : List PyVal) : PyDict :=
  [("status", .pyStr status),
   ("branch", .pyStr branch),
   ("repo", .pyStr repo),
   ("pr_url", pyOfOptStr pr_url),
   ("test_exit_code", pyOfOptInt (pipe_exit_code tr)),
   ("test_logs", test_logs_val tr),
   ("applied", applied),
   ("elapsed_seconds", .pyRat elapsed),
   ("where", .pyNone),
   ("message", .pyNone),
   ("validation_errors", .pyNone),
   ("timeline", if verbose then .pyList tl else .pyNone)]

/-- The result dict of the top-level `except Exception` branch, keys in
source order.  The source lists eleven keys here: `validation_errors` is
absent. -/
def unhandled_result (msg : String) (branch repo : Option String)
    (elapsed : ℚ) (verbose : Bool) (tl : List PyVal) : PyDict :=
  [("status", .pyStr "error"),
   ("where", .pyStr "orchestrator"),
   ("message", .pyStr msg),
   ("branch", pyOfOptStr branch),
   ("repo", pyOfOptStr repo),
   ("pr_url", .pyNone),
   ("test_exit_code", .pyNone),
   ("test_logs", .pyNone),
   ("applied", .pyNone),
   ("elapsed_seconds", .pyRat elapsed),
   ("timeline", if verbose then .pyList tl else .pyNone)]

/-- The `_stage` wrapper's timeline entry (verbose case): the preview is the
first five items of a dict output, `None` otherwise; the entry is appended
in the `finally:` block even when the stage raised (then `out is None`). -/
def stage_entry (name : String) (dur : ℚ) (out : Option PyVal) : PyVal :=
  .pyDict [("stage", .pyStr name),
           ("duration_s", .pyRat dur),
           ("preview", match out with
                       | some (.pyDict d) => .pyDict (d.take 5)
                       | _ => .pyNone)]

/-- Timeline bookkeeping of one `_stage` call. -/
def run_stage (verbose : Bool) (name : String) (dur : ℚ)
    (res : Except String PyVal) (tl : List PyVal) : List PyVal :=
  if verbose then
    tl ++ [stage_entry name dur
      (match res with | .ok v => some v | .error _ => none)]
  else tl

/-- The names of the five `_stage`-wrapped pipeline stages, in order. -/
def pipelineStages : List String :=
  ["prepare_workspace", "plan_changes", "generate_changes", "apply_changes",
   "build_and_test"]

/-- The continuation of `run_requirement_pipeline` after its opening
`observability.start_run()` call: requirement load with its short-circuit,
the staged pipeline with timeline bookkeeping, commit/push, the conditional
PR, success determination, and the three result-dict shapes.  Also returns
the list of `_stage`-wrapped stages that were invoked.  In the source this
continuation is unreachable: `start_run` never returns (see `start_run`);
it transcribes what the code after that call would do. -/
def pipeline_after_start (env : PipelineEnv) (envVerbose stream : Bool) :
    PyDict × List String :=
  let verbose := envVerbose || stream
  match env.loadRes with
  | .error e => (load_fail_result e env.elapsed verbose [], [])
  | .ok req =>
    let tl := run_stage verbose "prepare_workspace"
        (env.stageDur "prepare_workspace") env.prepareRes []
    match env.prepareRes with
    | .error m =>
      (unhandled_result m none none env.elapsed verbose tl, pipelineStages.take 1)
    | .ok _ws =>
      let repo := req.repo_url
      let branch := req.branch_name
      let tl := run_stage verbose "plan_changes"
          (env.stageDur "plan_changes") env.planRes tl
      match env.planRes with
      | .error m =>
        (unhandled_result m (some branch) (some repo) env.elapsed verbose tl,
         pipelineStages.take 2)
      | .ok _plan =>
        let tl := run_stage verbose "generate_changes"
            (env.stageDur "generate_changes") env.genRes tl
        match env.genRes with
        | .error m =>
          (unhandled_result m (some branch) (some repo) env.elapsed verbose tl,
           pipelineStages.take 3)
        | .ok _changes =>
          let tl := run_stage verbose "apply_changes"
              (env.stageDur "apply_changes") env.applyRes tl
          match env.applyRes with
          | .error m =>
            (unhandled_result m (some branch) (some repo) env.elapsed verbose tl,
             pipelineStages.take 4)
          | .ok applied =>
            let tl := run_stage verbose "build_and_test"
                (env.stageDur "build_and_test")
                (env.testRes.map testResultVal) tl
            match env.testRes with
            | .error m =>
              (unhandled_result m (some branch) (some repo) env.elapsed verbose tl,
               pipelineStages)
            | .ok tr =>
              match env.commitRes with
              | .error m =>
                (unhandled_result m (some branch) (some repo) env.elapsed verbose
                  tl, pipelineStages)
              | .ok ci =>
                let tl := if verbose then
                    tl ++ [.pyDict [("stage", .pyStr "commit_and_push"),
                                    ("duration_s", .pyNone),
                                    ("preview",
                                     .pyDict [("last_commit", pyOfOptStr ci)])]]
                  else tl
                if req.has_github && req.create_pr && req.has_token then
                  match env.prRes with
                  | .error m =>
                    (unhandled_result m (some branch) (some repo) env.elapsed
                      verbose tl, pipelineStages)
                  | .ok pr =>
                    let tl := if verbose then
                        tl ++ [.pyDict [("stage", .pyStr "open_pull_request"),
                                        ("duration_s", .pyNone),
                                        ("preview",
                                         .pyDict [("pr_url", pyOfOptStr pr)])]]
                      else tl
                    (success_result (pipeline_status tr) branch repo pr tr
                       applied env.elapsed verbose tl, pipelineStages)
                else
                  (success_result (pipeline_status tr) branch repo none tr
                     applied env.elapsed verbose tl, pipelineStages)

/-- Translation of `run_requirement_pipeline` (orchestrator.py line 140).
Its first effect is `observability.start_run()` (line 182), which
self-deadlocks — `reset()` re-acquires the lock `start_run` already
holds — so control never reaches `load_requirement` and no result
dictionary is ever returned, for every input. -/
def run_requirement_pipeline (env : PipelineEnv) (envVerbose stream : Bool) :
    Option (PyDict × List String) :=
  match start_run 0 initObs with
  | none => none
  | some _ => some (pipeline_after_start env envVerbose stream)

/-- An environment where every collaborator succeeds, with the given
build/test outcome. -/
def okEnv (tr : Option TestResult) : PipelineEnv :=
  { loadRes := .ok ⟨"https://github.com/o/r", "feature/f1", false, false, false⟩
    prepareRes := .ok (.pyDict [("repo_dir", .pyStr "/workspace/jobs/1/repo")])
    planRes := .ok .pyNone
    genRes := .ok .pyNone
    applyRes := .ok .pyNone
    testRes := .ok tr
    commitRes := .ok none
    prRes := .ok none
    stageDur := fun _ => 0
    elapsed := 0 }

/-- An environment whose `prepare_workspace` stage raises. -/
def prepareFailEnv : PipelineEnv :=
  { okEnv none with prepareRes := .error "clone failed" }

/-- An environment whose requirement load fails with one field error. -/
def loadFailEnv : PipelineEnv :=
  { okEnv none with
    loadRes := .error
      ⟨"models.Requirement", "Requirement validation failed",
       [.pyStr "id: field required"]⟩ }

/-- The twelve keys of the documented output contract. -/
def resultKeys12 : List String :=
  ["status", "branch", "repo", "pr_url", "test_exit_code", "test_logs",
   "applied", "elapsed_seconds", "where", "message", "validation_errors",
   "timeline"]

def loadFailKeys : List String :=
  ["status", "where", "message", "validation_errors", "branch", "repo",
   "pr_url", "test_exit_code", "test_logs", "applied", "elapsed_seconds",
   "timeline"]

def successKeys : List String :=
  ["status", "branch", "repo", "pr_url", "test_exit_code", "test_logs",
   "applied", "elapsed_seconds", "where", "message", "validation_errors",
   "timeline"]

def unhandledKeys : List String :=
  ["status", "where", "message", "branch", "repo", "pr_url",
   "test_exit_code", "test_logs", "applied", "elapsed_seconds", "timeline"]

/-! ## File-edit application (`app/tools/code_tools.py`)

The working tree is modelled as a finite map from absolute file paths to
file contents (association list); directories are implicit (`os.makedirs`
always succeeds in the model and file/directory conflicts are not
modelled).  `os.path.abspath(os.path.join(base, p))` is modelled by POSIX
string normalization over `/`-separated components, with `base` an absolute
path. -/

inductive FAction where
  | create
  | modify
  | delete
deriving DecidableEq

structure FileEdit where
  action : FAction
  path : String
  content : String
deriving DecidableEq

/-- `s.split("/")` on a Python string, computed structurally over the
character list. -/
def splitSegsAux : List Char → List Char → List String
  | [], acc => [String.mk acc.reverse]
  | c :: cs, acc =>
    if c = '/' then String.mk acc.reverse :: splitSegsAux cs []
    else splitSegsAux cs (c :: acc)

def splitSegs (s : String) : List String := splitSegsAux s.data []

/-- POSIX `normpath` over path components: drops empty and `"."` components
and resolves `".."` against the accumulated path (at the root, `".."` stays
at the root). -/
def normSegs (segs : List String) : List String :=
  segs.foldl (fun acc seg =>
    if seg = "" ∨ seg = "." then acc
    else if seg = ".." then acc.dropLast
    else acc ++ [seg]) []

/-- `os.path.join(base, p)` with an absolute `base`: an absolute `p`
discards `base`. -/
def os_join (base p : String) : String :=
  if p.data.head? = some '/' then p else base ++ "/" ++ p

/-- `os.path.abspath` on an absolute path string. -/
def abspath (p : String) : String :=
  "/" ++ String.intercalate "/" (normSegs (splitSegs p))

/-- `_safe_join`: join, normalize, and insist the candidate stays under the
base (`candidate.startswith(base_abs + os.sep)` or `candidate == base_abs`);
raises (`.error`) otherwise. -/
def safe_join (base p : String) : Except String String :=
  if abspath (os_join base p) == abspath base
      || (abspath base ++ "/").data.isPrefixOf (abspath (os_join base p)).data then
    .ok (abspath (os_join base p))
  else
    .error "Refusing to write outside repo"

def ensure_trailing_newline (s : String) : String :=
  if s.data.getLast? = some '\n' then s else s ++ "\n"

/-- The working tree: absolute path to file contents. -/
abbrev Fs := List (String × String)

def fsGet : Fs → String → Option String
  | [], _ => none
  | (k, v) :: t, p => if k == p then some v else fsGet t p

def fsErase : Fs → String → Fs
  | [], _ => []
  | (k, v) :: t, p => if k == p then fsErase t p else (k, v) :: fsErase t p

/-- `open(target, "w").write(...)`: create-or-overwrite. -/
def fsSet (fs : Fs) (p v : String) : Fs := (p, v) :: fsErase fs p

structure ApplyState where
  applied : List String
  deleted : List String
  skipped : List String
  fs : Fs
deriving DecidableEq

/-- One iteration of the `apply_changes` loop (per-edit try/continue: a
failing `_safe_join` records the path as skipped and moves on). -/
def apply_one (repo_dir : String) (st : ApplyState) (e : FileEdit) :
    ApplyState :=
  match safe_join repo_dir e.path with
  | .error _ => { st with skipped := st.skipped ++ [e.path] }
  | .ok target =>
    match e.action with
    | .delete =>
      if (fsGet st.fs target).isSome then
        { st with
          fs := fsErase st.fs target
          applied := st.applied ++ [e.path]
          deleted := st.deleted ++ [e.path] }
      else
        { st with skipped := st.skipped ++ [e.path] }
    | _ =>
      { st with
        fs := fsSet st.fs target (ensure_trailing_newline e.content)
        applied := st.applied ++ [e.path] }

/-- Translation of `apply_changes`: fold the edits over the working tree,
collecting applied/deleted/skipped files. -/
def apply_changes (repo_dir : String) (fs : Fs) (edits : List FileEdit) :
    ApplyState :=
  edits.foldl (apply_one repo_dir) ⟨[], [], [], fs⟩

/-- The fs-level effect of one edit at its resolved target: `none` when the
edit is skipped by `_safe_join`, otherwise the target path together with the
value it forces there (`none` = absent, for delete). -/
def editEffect (repo_dir : String) (e : FileEdit) :
    Option (String × Option String) :=
  match safe_join repo_dir e.path with
  | .error _ => none
  | .ok target =>
    match e.action with
    | .delete => some (target, none)
    | _ => some (target, some (ensure_trailing_newline e.content))

/-- The last effect a list of edits has at path `p` (later edits win). -/
def lastTouch (repo_dir : String) : List FileEdit → String → Option (Option String)
  | [], _ => none
  | e :: es, p =>
    match lastTouch repo_dir es p with
    | some v => some v
    | none =>
      match editEffect repo_dir e with
      | some (c, v) => if c = p then some v else none
      | none => none

/-- Paths inside the repository root, exactly as `_safe_join` admits them. -/
def inRepo (repo_dir p : String) : Bool :=
  p == abspath repo_dir || (abspath repo_dir ++ "/").data.isPrefixOf p.data

/-! ### Claims C1 and C3 -/

/-- C1: with container base `cbase` and host base `hbase`, `_to_host_path`
maps `cbase` itself to `hbase` exactly; maps any path strictly nested under
`cbase` to `hbase` plus the same relative suffix; returns unchanged any path
that is neither `cbase` nor nested under it (in particular a sibling sharing
a string prefix); and raises when the path is under `cbase` but no host base
is configured. -/
theorem C1_host_path_translation
    (cb hb s rp : PathStr) (hcb : cb ≠ []) (hs : s ≠ ['.'])
    (hrp₁ : rp ≠ []) (hrp₂ : rp ≠ cb)
    (hrp₃ : (cb ++ [sepChar]).isPrefixOf rp = false) :
    to_host_path (some cb) (some hb) cb = .ok hb
    ∧ to_host_path (some cb) (some hb) (cb ++ sepChar :: s) = .ok (hb ++ sepChar :: s)
    ∧ to_host_path (some cb) (some hb) rp = .ok rp
    ∧ to_host_path (some cb) none (cb ++ sepChar :: s) = .error noHostBaseMsg := by
  have hne : cb ++ sepChar :: s ≠ [] := by simp
  have hlen : (cb ++ sepChar :: s) ≠ cb := by
    intro h
    have := congrArg List.length h
    simp at this
  have hpre : (cb ++ [sepChar]).isPrefixOf (cb ++ sepChar :: s) = true := by
    have : cb ++ sepChar :: s = (cb ++ [sepChar]) ++ s := by simp
    rw [this]
    simp
  have hsuffix : relpath_under (cb ++ sepChar :: s) cb = s := by
    unfold relpath_under
    rw [if_neg (by simp [hlen])]
    have : cb ++ sepChar :: s = (cb ++ [sepChar]) ++ s := by simp
    rw [this]
    exact List.drop_left' (by simp)
  refine ⟨?_, ?_, ?_, ?_⟩
  · unfold to_host_path
    rw [if_neg hcb]
    simp [relpath_under]
  · unfold to_host_path
    rw [if_neg hne]
    simp [hpre, hsuffix, hs]
  · unfold to_host_path
    rw [if_neg hrp₁]
    simp [hrp₂, hrp₃]
  · unfold to_host_path
    rw [if_neg hne]
    simp [hpre]

/-- Witness for C1 at the specification's concrete example paths. -/
theorem C1_host_path_translation_witness :
    to_host_path (some "/workspace/jobs".data) (some "/host/jobs".data)
        "/workspace/jobs".data = .ok "/host/jobs".data
    ∧ to_host_path (some "/workspace/jobs".data) (some "/host/jobs".data)
        ("/workspace/jobs".data ++ sepChar :: "42/repo".data)
        = .ok ("/host/jobs".data ++ sepChar :: "42/repo".data)
    ∧ to_host_path (some "/workspace/jobs".data) (some "/host/jobs".data)
        "/workspace/jobs2/x".data = .ok "/workspace/jobs2/x".data
    ∧ to_host_path (some "/workspace/jobs".data) none
        ("/workspace/jobs".data ++ sepChar :: "42/repo".data)
        = .error noHostBaseMsg :=
  C1_host_path_translation "/workspace/jobs".data "/host/jobs".data
    "42/repo".data "/workspace/jobs2/x".data
    (by decide) (by decide) (by decide) (by decide) (by decide)

/-- C3: on every execution of `DockerRunner.run` — command exits 0, exits
non-zero, the daemon raises, or the wait times out — a started container is
force-removed (exactly once) before `run` returns or propagates, and no
container started by `run` survives: `existsNow` is always `false` at exit,
and the remove count is 1 exactly when a container was started. -/
theorem C3_container_cleanup (cbase hbase : Option PathStr)
    (repo_dir : PathStr) (env : DockerEnv) :
    (docker_run cbase hbase repo_dir env).container.existsNow = false
    ∧ (docker_run cbase hbase repo_dir env).container.removeCalls
        = (if (docker_run cbase hbase repo_dir env).container.started then 1 else 0) := by
  unfold docker_run
  cases h : to_host_path cbase hbase repo_dir with
  | error m => simp [finallyRemove]
  | ok host =>
    cases env.startRes with
    | apiErr expl => simp [finallyRemove]
    | started =>
      cases env.waitRes with
      | exited code => simp [finallyRemove]
      | apiErr expl => simp [finallyRemove]
      | timedOut => simp [finallyRemove]

/-! ### Claims C6, C7, C8 -/

set_option maxRecDepth 8000 in
/-- C6 counterexample: `snapshot` copies only the top-level lists
(`list(self.timeline)`), not the entry dicts they reference, so the value
previously returned by `snapshot()` is NOT unchanged under every subsequent
mutating operation: on the freshly constructed tracker, after `stage_start`
a snapshot is taken whose single timeline entry is still open; the
subsequent `stage_end` mutates that shared entry in place, and the
snapshot's view of its timeline changes.  Every call in this trace takes
the lock exactly once, so the trace is executable in the source. -/
theorem C6_snapshot_aliasing_counterexample :
    snapshotView (snapshot c6state)
        (stage_end "prepare_workspace" none 2 c6state)
      ≠ snapshotView (snapshot c6state) c6state := by decide

/-- C6 (amended): a snapshot's top-level lists are fresh copies, so the
append-only operations (`stage_start`, `add_message`) and the scalar update
`finish_run` leave a previously returned snapshot's view unchanged; only
`stage_end`'s in-place close of a shared entry is visible through an
earlier snapshot (see the counterexample).  (`start_run`, the remaining
mutator, never returns in the source — see `start_run` — so no state after
it exists to compare.) -/
theorem C6_snapshot_insulation (st : ObsState) (n role content status : String)
    (t : ℚ) (hvalid : ∀ i ∈ st.timeline, i < st.heap.length) :
    snapshotView (snapshot st) (stage_start n t st)
        = snapshotView (snapshot st) st
    ∧ snapshotView (snapshot st) (add_message role content t st)
        = snapshotView (snapshot st) st
    ∧ snapshotView (snapshot st) (finish_run status t st)
        = snapshotView (snapshot st) st := by
  refine ⟨?_, rfl, rfl⟩
  unfold snapshotView snapshot stage_start
  apply List.map_congr_left
  intro i hi
  exact List.getElem?_append_left (hvalid i hi)

/-- Witness for the amended C6 at a concrete tracker state. -/
theorem C6_snapshot_insulation_witness :
    snapshotView (snapshot c6state) (stage_start "x" 2 c6state)
        = snapshotView (snapshot c6state) c6state
    ∧ snapshotView (snapshot c6state) (add_message "user" "hello" 2 c6state)
        = snapshotView (snapshot c6state) c6state
    ∧ snapshotView (snapshot c6state) (finish_run "success" 2 c6state)
        = snapshotView (snapshot c6state) c6state :=
  C6_snapshot_insulation c6state "x" "user" "hello" "success" 2 (by decide)

/-- C7 counterexample: `add_message` appends the FULL content to the stored
conversation log — a 5000-character message is stored with all 5000
characters, not truncated to the 2048-character bound.  The trace is
executable in the source: `add_message` on the freshly constructed tracker
takes the lock exactly once. -/
theorem C7_message_stored_untruncated :
    c7state.conversation = [{ role := "assistant", content := bigMsg, time := 1 }]
    ∧ bigMsg.length = 5000
    ∧ truncate_content bigMsg ≠ bigMsg := by
  have hdata : bigMsg.data = List.replicate 5000 'a' := rfl
  have hlen : bigMsg.length = 5000 := by
    show bigMsg.data.length = 5000
    rw [hdata, List.length_replicate]
  refine ⟨rfl, hlen, ?_⟩
  intro h
  have h2 := congrArg String.length h
  rw [hlen] at h2
  unfold truncate_content at h2
  rw [if_neg (by rw [hlen]; omega)] at h2
  rw [String.length_append] at h2
  have h3 : (String.mk (bigMsg.data.take 2048)).length = 2048 := by
    show (bigMsg.data.take 2048).length = 2048
    rw [hdata, List.length_take, List.length_replicate]
    decide
  have h4 : ("…" : String).length = 1 := rfl
  rw [h3, h4] at h2
  omega

/-- C7 (amended): the stored conversation entry keeps the full content
(storage is unbounded); only the copy attached as an OTEL span event is
truncated, to 2048 characters plus a one-character marker, so every event
payload is at most 2049 characters; `add_message` is total (no exception). -/
theorem C7_message_bounding (st : ObsState) (role content : String) (t : ℚ) :
    (add_message role content t st).conversation
        = st.conversation ++ [{ role := role, content := content, time := t }]
    ∧ (add_message role content t st).events
        = (if st.stageSpanOpen || st.runSpanOpen then
            st.events ++ [{ name := "message", role := role
                            content := truncate_content content }]
          else st.events)
    ∧ (truncate_content content).length ≤ 2049 := by
  refine ⟨rfl, rfl, ?_⟩
  unfold truncate_content
  by_cases h : content.length ≤ 2048
  · rw [if_pos h]; omega
  · rw [if_neg h, String.length_append]
    have h3 : (String.mk (content.data.take 2048)).length
        = (content.data.take 2048).length := rfl
    have h4 : ("…" : String).length = 1 := rfl
    rw [h3, h4]
    simp only [List.length_take]
    omega

/-- Witness for the amended C7 at the 5000-character message, on a state
with an open stage span (so the truncated event branch is exercised). -/
theorem C7_message_bounding_witness :
    (add_message "assistant" bigMsg 2
        (stage_start "plan_changes" 1 initObs)).conversation
        = (stage_start "plan_changes" 1 initObs).conversation
          ++ [{ role := "assistant", content := bigMsg, time := 2 }]
    ∧ (add_message "assistant" bigMsg 2
        (stage_start "plan_changes" 1 initObs)).events
        = (if (stage_start "plan_changes" 1 initObs).stageSpanOpen
              || (stage_start "plan_changes" 1 initObs).runSpanOpen then
            (stage_start "plan_changes" 1 initObs).events
              ++ [{ name := "message", role := "assistant"
                    content := truncate_content bigMsg }]
          else (stage_start "plan_changes" 1 initObs).events)
    ∧ (truncate_content bigMsg).length ≤ 2049 :=
  C7_message_bounding (stage_start "plan_changes" 1 initObs) "assistant" bigMsg 2

/-- The heap invariant is monotone in its time bound. -/
theorem heapOkB_mono {t t' : ℚ} {st : ObsState} (h : heapOkB t st = true)
    (htt : t ≤ t') : heapOkB t' st = true := by
  unfold heapOkB at h ⊢
  rw [List.all_eq_true] at h ⊢
  intro e he
  have h2 := h e he
  rw [Bool.and_eq_true] at h2 ⊢
  refine ⟨?_, h2.2⟩
  rw [decide_eq_true_eq] at h2 ⊢
  exact le_trans h2.1 htt

/-- One tracker operation preserves the heap invariant, provided its
timestamp is no earlier than the invariant's bound. -/
theorem applyObs_heapOk {st : ObsState} {t : ℚ} (op : ObsOp)
    (hok : heapOkB t st = true) (ht : t ≤ opTime op) :
    heapOkB (opTime op) (applyObs st op) = true := by
  have hok' : heapOkB (opTime op) st = true := heapOkB_mono hok ht
  cases op with
  | startRun t' => exact hok'
  | addMessage r c t' => exact hok'
  | finishRun s t' => exact hok'
  | stageStart n t' =>
    show heapOkB t' (stage_start n t' st) = true
    have h0 : heapOkB t' st = true := hok'
    unfold heapOkB at h0
    show ((st.heap ++ [({ stage := n, start := t' } : TimelineEntry)]).all
        fun e => decide (e.start ≤ t') && entryClosedOkB e) = true
    rw [List.all_append]
    rw [Bool.and_eq_true]
    refine ⟨h0, ?_⟩
    simp [entryClosedOkB]
  | stageEnd n p t' =>
    show heapOkB t' (stage_end n p t' st) = true
    have hok2 : ∀ x, x ∈ st.heap →
        (decide (x.start ≤ t') && entryClosedOkB x) = true := by
      have h0 : heapOkB t' st = true := hok'
      unfold heapOkB at h0
      rw [List.all_eq_true] at h0
      exact h0
    show ((stage_end_heap n p t' st).all
        fun e => decide (e.start ≤ t') && entryClosedOkB e) = true
    unfold stage_end_heap
    split
    · exact hok'
    · rename_i i heq
      split
      · exact hok'
      · rename_i e heq2
        split
        · rename_i hst
          rw [List.all_eq_true]
          intro x hx
          rcases List.mem_or_eq_of_mem_set hx with hmem | hx_eq
          · exact hok2 x hmem
          · have he : e ∈ st.heap := List.getElem?_mem heq2
            have h2 := hok2 e he
            rw [Bool.and_eq_true, decide_eq_true_eq] at h2
            subst hx_eq
            simp [closeEntry, entryClosedOkB, h2.1]
        · exact hok'

/-- All timeline entries that are closed after a monotone-timestamp run of
the tracker are well-formed. -/
theorem foldl_entryOk (ops : List ObsOp) : ∀ (t : ℚ) (st : ObsState),
    heapOkB t st = true → timesMonoB t ops = true →
    ((ops.foldl applyObs st).heap.all entryClosedOkB) = true := by
  induction ops with
  | nil =>
    intro t st hok _
    unfold heapOkB at hok
    show (st.heap.all entryClosedOkB) = true
    rw [List.all_eq_true] at hok ⊢
    intro e he
    have h2 := hok e he
    rw [Bool.and_eq_true] at h2
    exact h2.2
  | cons op rest ih =>
    intro t st hok hmono
    unfold timesMonoB at hmono
    rw [Bool.and_eq_true, decide_eq_true_eq] at hmono
    exact ih (opTime op) (applyObs st op)
      (applyObs_heapOk op hok hmono.1) hmono.2

/-- C8: for every run of the tracker whose timestamps are nondecreasing,
every closed timeline entry satisfies `end >= start` with
`duration == round(end - start, 3)` (so `duration == end - start` within
rounding); and `stage_end` called with a name that does not match the
last-opened entry's stage neither raises nor modifies any existing timeline
entry (heap and reference list are both unchanged). -/
theorem C8_timeline_entries (ops : List ObsOp) (t0 : ℚ) (st : ObsState)
    (nm : String) (pv : Option String) (t : ℚ)
    (hmono : timesMonoB t0 ops = true)
    (hmis : stageEndMatches st nm = false) :
    ((runObs ops).heap.all entryClosedOkB) = true
    ∧ (stage_end nm pv t st).heap = st.heap
    ∧ (stage_end nm pv t st).timeline = st.timeline := by
  refine ⟨foldl_entryOk ops t0 initObs rfl hmono, ?_, rfl⟩
  show stage_end_heap nm pv t st = st.heap
  unfold stageEndMatches at hmis
  unfold stage_end_heap
  split
  · rfl
  · rename_i i heq
    split
    · rfl
    · rename_i e heq2
      simp only [heq, heq2] at hmis
      simp [hmis]

/-- Witness for C8 at a concrete completed run and a concrete mismatched
`stage_end` call. -/
theorem C8_timeline_entries_witness :
    ((runObs c8ops).heap.all entryClosedOkB) = true
    ∧ (stage_end "other" none 5 c6state).heap = c6state.heap
    ∧ (stage_end "other" none 5 c6state).timeline = c6state.timeline :=
  C8_timeline_entries c8ops 0 c6state "other" none 5 (by decide) (by decide)

/-! ### Decimal-rendering facts -/

theorem natDigitsAux_eq_digits (fuel : Nat) :
    ∀ n, n ≤ fuel → natDigitsAux fuel n = Nat.digits 10 n := by
  induction fuel with
  | zero =>
    intro n h
    interval_cases n
    simp [natDigitsAux]
  | succ f ih =>
    intro n h
    cases n with
    | zero => simp [natDigitsAux]
    | succ m =>
      rw [show natDigitsAux (f + 1) (m + 1)
          = ((m + 1) % 10) :: natDigitsAux f ((m + 1) / 10) from rfl]
      rw [Nat.digits_def' (by norm_num : (1:ℕ) < 10) (Nat.succ_pos m)]
      congr 1
      apply ih
      have hlt := Nat.div_lt_self (Nat.succ_pos m) (by norm_num : 1 < 10)
      omega

theorem py_nat_digits_eq (n : Nat) : py_nat_digits n = Nat.digits 10 n :=
  natDigitsAux_eq_digits n n le_rfl

theorem py_nat_str_eq_zero {n : Nat} (h : py_nat_str n = "0") : n = 0 := by
  by_contra hn
  unfold py_nat_str at h
  rw [if_neg hn, py_nat_digits_eq] at h
  have hl : (Nat.digits 10 n).reverse.map Nat.digitChar = ['0'] :=
    congrArg String.data h
  have hlen : (Nat.digits 10 n).length = 1 := by
    have h2 := congrArg List.length hl
    simpa using h2
  obtain ⟨d, hd⟩ := List.length_eq_one.mp hlen
  have hn_eq : n = d := by
    have h3 := Nat.ofDigits_digits 10 n
    rw [hd] at h3
    simpa [Nat.ofDigits] using h3.symm
  have hdc : Nat.digitChar d = '0' := by
    rw [hd] at hl
    simpa using hl
  have hdm : d ∈ Nat.digits 10 n := by
    rw [hd]
    exact List.mem_singleton.mpr rfl
  have hdlt : d < 10 := Nat.digits_lt_base (by norm_num) hdm
  have hd0 : d ≠ 0 := fun h0 => hn (hn_eq.trans h0)
  interval_cases d
  · exact hd0 rfl
  all_goals exact absurd hdc (by decide)

theorem py_nat_str_ne_none (n : Nat) : py_nat_str n ≠ "None" := by
  unfold py_nat_str
  by_cases h : n = 0
  · rw [if_pos h]
    decide
  · rw [if_neg h, py_nat_digits_eq]
    intro hcontra
    have hl : (Nat.digits 10 n).reverse.map Nat.digitChar = "None".data :=
      congrArg String.data hcontra
    have hne : Nat.digits 10 n ≠ [] := Nat.digits_ne_nil_iff_ne_zero.mpr h
    cases hrev : (Nat.digits 10 n).reverse with
    | nil => exact hne (by simpa using congrArg List.reverse hrev)
    | cons d tl =>
      rw [hrev] at hl
      have hdn : Nat.digitChar d = 'N' := by
        have h2 : Nat.digitChar d :: tl.map Nat.digitChar
            = ['N', 'o', 'n', 'e'] := hl
        exact (List.cons.injEq _ _ _ _ ▸ h2).1
      have hdm : d ∈ Nat.digits 10 n := by
        rw [← List.mem_reverse, hrev]
        exact List.mem_cons_self d tl
      have hdlt : d < 10 := Nat.digits_lt_base (by norm_num) hdm
      interval_cases d <;> exact absurd hdn (by decide)

theorem py_int_str_eq_zero {n : Int} (h : py_int_str n = "0") : n = 0 := by
  unfold py_int_str at h
  by_cases hneg : n < 0
  · rw [if_pos hneg] at h
    exfalso
    have h2 : ('-' :: (py_nat_str n.natAbs).data) = ['0'] := by
      have h3 := congrArg String.data h
      rwa [String.data_append] at h3
    have h4 : '-' = '0' := (List.cons.injEq _ _ _ _ ▸ h2).1
    exact absurd h4 (by decide)
  · rw [if_neg hneg] at h
    have h2 := py_nat_str_eq_zero h
    omega

theorem py_int_str_ne_none (n : Int) : py_int_str n ≠ "None" := by
  unfold py_int_str
  by_cases hneg : n < 0
  · rw [if_pos hneg]
    intro h
    have h2 : ('-' :: (py_nat_str n.natAbs).data) = ['N', 'o', 'n', 'e'] := by
      have h3 := congrArg String.data h
      rwa [String.data_append] at h3
    have h4 : '-' = 'N' := (List.cons.injEq _ _ _ _ ▸ h2).1
    exact absurd h4 (by decide)
  · rw [if_neg hneg]
    exact py_nat_str_ne_none _

/-! ### Claim C2 -/

/-- C2 (code bug): the claim matches the success determination the
orchestrator's code spells out — `success` iff the build/test exit status
is zero, a missing/`None` status tolerated as success, `{status: 0}` giving
`"success"` and `{status: 1}` giving `"error"` with `test_exit_code == 1` —
but `run_requirement_pipeline` never reports any status: its first
statement, `observability.start_run()`, self-deadlocks, so the call
produces no result on any input (first conjunct).  The remaining conjuncts
establish the claimed success logic of the unreachable continuation. -/
theorem C2_success_determination (tr : Option TestResult) :
    run_requirement_pipeline (okEnv (some ⟨some 0, "ok"⟩)) false false = none
    ∧ (pipeline_status tr = "success"
      ↔ (pipe_exit_code tr = none ∨ pipe_exit_code tr = some 0))
    ∧ dictGet (pipeline_after_start (okEnv (some ⟨some 0, "ok"⟩))
        false false).1 "status" = some (.pyStr "success")
    ∧ dictGet (pipeline_after_start (okEnv (some ⟨some 1, "fail"⟩))
        false false).1 "status" = some (.pyStr "error")
    ∧ dictGet (pipeline_after_start (okEnv (some ⟨some 1, "fail"⟩))
        false false).1 "test_exit_code" = some (.pyInt 1) := by
  refine ⟨rfl, ?_, rfl, ?_, rfl⟩
  · constructor
    · intro h
      unfold pipeline_status at h
      by_cases hs : pipeline_success tr = true
      · unfold pipeline_success at hs
        rw [Bool.or_eq_true, Bool.or_eq_true] at hs
        cases hec : pipe_exit_code tr with
        | none => exact Or.inl rfl
        | some n =>
          rw [hec] at hs
          rcases hs with (h1 | h2) | h3
          · rw [beq_iff_eq] at h1
            have h0 := py_int_str_eq_zero h1
            exact Or.inr (by rw [h0])
          · rw [beq_iff_eq] at h2
            exact absurd h2 (py_int_str_ne_none n)
          · rw [beq_iff_eq] at h3
            exact Or.inr h3
      · rw [if_neg hs] at h
        simp at h
    · intro h
      unfold pipeline_status pipeline_success
      rcases h with h | h
      · rw [h]
        rfl
      · rw [h]
        rfl
  · have h1 : pipeline_status (some ⟨some 1, "fail"⟩) = "error" := by
      unfold pipeline_status pipeline_success
      rw [if_neg (by rw [show py_str_exit (pipe_exit_code (some ⟨some 1, "fail"⟩))
          = "1" from rfl]; decide)]
    show dictGet (success_result (pipeline_status (some ⟨some 1, "fail"⟩))
        "feature/f1" "https://github.com/o/r" none (some ⟨some 1, "fail"⟩)
        .pyNone 0 false []) "status" = some (.pyStr "error")
    rw [h1]
    rfl

/-! ### Claims C4 and C5 -/

/-- C4 (code bug): the claim states that every result dictionary returned
by `run_requirement_pipeline` carries all twelve keys, but the code
diverges from that intent twice.  First, the function returns no result
dictionary at all: its opening `observability.start_run()` call
self-deadlocks, shown here at a prepare-failure input (first conjunct).
Second, were the deadlock fixed, the top-level `except Exception` branch
builds a dict WITHOUT the `validation_errors` key (second conjunct), while
the load-failure and success shapes of the continuation do carry exactly
the twelve documented keys and the unhandled shape the other eleven
(remaining conjuncts). -/
theorem C4_result_shape (env : PipelineEnv) (envVerbose stream : Bool) :
    run_requirement_pipeline prepareFailEnv false false = none
    ∧ "validation_errors"
        ∉ dictKeys (pipeline_after_start prepareFailEnv false false).1
    ∧ (dictKeys (pipeline_after_start env envVerbose stream).1 = loadFailKeys
     ∨ dictKeys (pipeline_after_start env envVerbose stream).1 = successKeys
     ∨ dictKeys (pipeline_after_start env envVerbose stream).1 = unhandledKeys)
    ∧ List.Perm loadFailKeys resultKeys12
    ∧ List.Perm successKeys resultKeys12
    ∧ List.Perm unhandledKeys (resultKeys12.erase "validation_errors") := by
  refine ⟨rfl, by decide, ?_, by decide, by decide, by decide⟩
  unfold pipeline_after_start
  cases env.loadRes with
  | error e => exact Or.inl rfl
  | ok req =>
    cases env.prepareRes with
    | error m => exact Or.inr (Or.inr rfl)
    | ok ws =>
      cases env.planRes with
      | error m => exact Or.inr (Or.inr rfl)
      | ok plan =>
        cases env.genRes with
        | error m => exact Or.inr (Or.inr rfl)
        | ok changes =>
          cases env.applyRes with
          | error m => exact Or.inr (Or.inr rfl)
          | ok applied =>
            cases env.testRes with
            | error m => exact Or.inr (Or.inr rfl)
            | ok tr =>
              cases env.commitRes with
              | error m => exact Or.inr (Or.inr rfl)
              | ok ci =>
                cases hb : (req.has_github && req.create_pr && req.has_token) with
                | false =>
                  simp only [hb]
                  exact Or.inr (Or.inl rfl)
                | true =>
                  simp only [hb]
                  cases env.prRes with
                  | error m => exact Or.inr (Or.inr rfl)
                  | ok pr => exact Or.inr (Or.inl rfl)

/-- C5 (code bug): the claim says a failing requirement load makes
`run_requirement_pipeline` return immediately with the load-failure dict,
but the function never returns at all: it deadlocks in
`observability.start_run()` BEFORE `load_requirement` is ever called
(first conjunct).  The remaining conjuncts establish the claimed
short-circuit of the unreachable continuation: the load-failure dict with
`status="error"`, the `where` tag, the `message` and the structured
`validation_errors`, with no pipeline stage invoked (in particular the
workspace-creating `prepare_workspace` never runs). -/
theorem C5_load_failure_short_circuit (env : PipelineEnv)
    (envVerbose stream : Bool) (e : LoadErr)
    (hload : env.loadRes = .error e) :
    run_requirement_pipeline env envVerbose stream = none
    ∧ (pipeline_after_start env envVerbose stream).1
        = load_fail_result e env.elapsed (envVerbose || stream) []
    ∧ (pipeline_after_start env envVerbose stream).2 = []
    ∧ dictGet (pipeline_after_start env envVerbose stream).1 "status"
        = some (.pyStr "error")
    ∧ dictGet (pipeline_after_start env envVerbose stream).1 "where"
        = some (.pyStr e.loc)
    ∧ dictGet (pipeline_after_start env envVerbose stream).1 "message"
        = some (.pyStr e.message)
    ∧ dictGet (pipeline_after_start env envVerbose stream).1
        "validation_errors" = some (.pyList e.validation_errors) := by
  unfold pipeline_after_start
  rw [hload]
  exact ⟨rfl, rfl, rfl, rfl, rfl, rfl, rfl⟩

/-- Witness for C5 at a concrete schema-validation failure. -/
theorem C5_load_failure_short_circuit_witness :
    run_requirement_pipeline loadFailEnv false false = none
    ∧ (pipeline_after_start loadFailEnv false false).1
        = load_fail_result
            ⟨"models.Requirement", "Requirement validation failed",
             [.pyStr "id: field required"]⟩
            loadFailEnv.elapsed (false || false) []
    ∧ (pipeline_after_start loadFailEnv false false).2 = []
    ∧ dictGet (pipeline_after_start loadFailEnv false false).1 "status"
        = some (.pyStr "error")
    ∧ dictGet (pipeline_after_start loadFailEnv false false).1 "where"
        = some (.pyStr "models.Requirement")
    ∧ dictGet (pipeline_after_start loadFailEnv false false).1 "message"
        = some (.pyStr "Requirement validation failed")
    ∧ dictGet (pipeline_after_start loadFailEnv false false).1
        "validation_errors" = some (.pyList [.pyStr "id: field required"]) :=
  C5_load_failure_short_circuit loadFailEnv false false
    ⟨"models.Requirement", "Requirement validation failed",
     [.pyStr "id: field required"]⟩ rfl

/-! ### Claims C9 and C10 -/

theorem fsGet_fsErase : ∀ (fs : Fs) (q p : String),
    fsGet (fsErase fs q) p = if p = q then none else fsGet fs p := by
  intro fs q p
  induction fs with
  | nil => simp [fsGet, fsErase]
  | cons a t ih =>
    obtain ⟨k, v⟩ := a
    by_cases h1 : k = q <;> by_cases h2 : k = p <;> by_cases h3 : p = q <;>
      simp_all [fsGet, fsErase]

theorem fsGet_fsSet (fs : Fs) (q v p : String) :
    fsGet (fsSet fs q v) p = if p = q then some v else fsGet fs p := by
  unfold fsSet
  show (if q == p then some v else fsGet (fsErase fs q) p) = _
  by_cases h : q = p
  · simp [h]
  · have h2 : ¬ p = q := fun hh => h hh.symm
    rw [fsGet_fsErase]
    simp [h, h2]

theorem apply_one_fs_lookup (repo_dir : String) (st : ApplyState)
    (e : FileEdit) (p : String) :
    fsGet (apply_one repo_dir st e).fs p
      = match editEffect repo_dir e with
        | some (c, v) => if c = p then v else fsGet st.fs p
        | none => fsGet st.fs p := by
  unfold apply_one editEffect
  cases hs : safe_join repo_dir e.path with
  | error m => rfl
  | ok target =>
    cases ha : e.action with
    | delete =>
      by_cases hex : (fsGet st.fs target).isSome = true
      · by_cases hpt : p = target
        · simp [hex, fsGet_fsErase, hpt]
        · simp [hex, fsGet_fsErase, hpt, Ne.symm hpt]
      · have hnone : fsGet st.fs target = none := by
          cases hv : fsGet st.fs target with
          | none => rfl
          | some w => rw [hv] at hex; simp at hex
        by_cases hpt : p = target
        · simp [hex, hpt, hnone]
        · simp [hex, hpt, Ne.symm hpt]
    | create =>
      by_cases hpt : p = target
      · simp [fsGet_fsSet, hpt]
      · simp [fsGet_fsSet, hpt, Ne.symm hpt]
    | modify =>
      by_cases hpt : p = target
      · simp [fsGet_fsSet, hpt]
      · simp [fsGet_fsSet, hpt, Ne.symm hpt]

theorem apply_fold_lookup (repo_dir : String) (edits : List FileEdit) :
    ∀ (st : ApplyState) (p : String),
    fsGet (List.foldl (apply_one repo_dir) st edits).fs p
      = match lastTouch repo_dir edits p with
        | some v => v
        | none => fsGet st.fs p := by
  induction edits with
  | nil => intro st p; rfl
  | cons e es ih =>
    intro st p
    rw [List.foldl_cons, ih (apply_one repo_dir st e) p]
    cases hl : lastTouch repo_dir es p with
    | some v =>
      have h2 : lastTouch repo_dir (e :: es) p = some v := by
        unfold lastTouch
        rw [hl]
      rw [h2]
    | none =>
      have h2 : lastTouch repo_dir (e :: es) p
          = match editEffect repo_dir e with
            | some (c, v) => if c = p then some v else none
            | none => none := by
        unfold lastTouch
        rw [hl]
      rw [h2, apply_one_fs_lookup]
      cases he : editEffect repo_dir e with
      | none => rfl
      | some cv =>
        obtain ⟨c, v⟩ := cv
        by_cases hcp : c = p
        · simp [hcp]
        · simp [hcp]

/-- The outcome of one edit starting from empty bookkeeping lists. -/
def applyDelta (repo_dir : String) (fs : Fs) (e : FileEdit) : ApplyState :=
  apply_one repo_dir ⟨[], [], [], fs⟩ e

theorem apply_one_decomp (repo_dir : String) (st : ApplyState) (e : FileEdit) :
    apply_one repo_dir st e
      = { applied := st.applied ++ (applyDelta repo_dir st.fs e).applied
          deleted := st.deleted ++ (applyDelta repo_dir st.fs e).deleted
          skipped := st.skipped ++ (applyDelta repo_dir st.fs e).skipped
          fs := (applyDelta repo_dir st.fs e).fs } := by
  unfold applyDelta apply_one
  cases safe_join repo_dir e.path with
  | error m => simp
  | ok target =>
    cases e.action with
    | delete =>
      by_cases hex : (fsGet st.fs target).isSome = true
      · simp [hex]
      · simp [hex]
    | create => simp
    | modify => simp

theorem apply_fold_state (repo_dir : String) (edits : List FileEdit) :
    ∀ (st : ApplyState),
    List.foldl (apply_one repo_dir) st edits
      = { applied := st.applied ++ (apply_changes repo_dir st.fs edits).applied
          deleted := st.deleted ++ (apply_changes repo_dir st.fs edits).deleted
          skipped := st.skipped ++ (apply_changes repo_dir st.fs edits).skipped
          fs := (apply_changes repo_dir st.fs edits).fs } := by
  induction edits with
  | nil =>
    intro st
    show st = _
    have h0 : apply_changes repo_dir st.fs [] = ⟨[], [], [], st.fs⟩ := rfl
    rw [h0]
    simp
  | cons e es ih =>
    intro st
    rw [List.foldl_cons, ih (apply_one repo_dir st e), apply_one_decomp]
    have hrhs : apply_changes repo_dir st.fs (e :: es)
        = { applied := (applyDelta repo_dir st.fs e).applied
              ++ (apply_changes repo_dir
                   (applyDelta repo_dir st.fs e).fs es).applied
            deleted := (applyDelta repo_dir st.fs e).deleted
              ++ (apply_changes repo_dir
                   (applyDelta repo_dir st.fs e).fs es).deleted
            skipped := (applyDelta repo_dir st.fs e).skipped
              ++ (apply_changes repo_dir
                   (applyDelta repo_dir st.fs e).fs es).skipped
            fs := (apply_changes repo_dir
                   (applyDelta repo_dir st.fs e).fs es).fs } := by
      show List.foldl (apply_one repo_dir)
          (apply_one repo_dir ⟨[], [], [], st.fs⟩ e) es = _
      rw [ih (apply_one repo_dir ⟨[], [], [], st.fs⟩ e), apply_one_decomp]
      simp [applyDelta]
    rw [hrhs]
    simp

/-- C9: applying a validated edit list is idempotent at the level of file
contents — applying the list twice to the same repository yields the same
files as applying it once; and a delete edit whose target is absent is
recorded in `skipped_files` without raising and without aborting the
remaining edits. -/
theorem C9_apply_changes_idempotent (repo_dir : String) (fs : Fs)
    (edits rest : List FileEdit) (p : String) (e : FileEdit) (target : String)
    (he : e.action = .delete)
    (hj : safe_join repo_dir e.path = .ok target)
    (habs : fsGet fs target = none) :
    fsGet (apply_changes repo_dir
        (apply_changes repo_dir fs edits).fs edits).fs p
      = fsGet (apply_changes repo_dir fs edits).fs p
    ∧ apply_changes repo_dir fs (e :: rest)
        = { applied := (apply_changes repo_dir fs rest).applied
            deleted := (apply_changes repo_dir fs rest).deleted
            skipped := e.path :: (apply_changes repo_dir fs rest).skipped
            fs := (apply_changes repo_dir fs rest).fs } := by
  constructor
  · have h1 := apply_fold_lookup repo_dir edits ⟨[], [], [], fs⟩ p
    have h2 := apply_fold_lookup repo_dir edits
        ⟨[], [], [], (apply_changes repo_dir fs edits).fs⟩ p
    show fsGet (List.foldl (apply_one repo_dir)
        ⟨[], [], [], (apply_changes repo_dir fs edits).fs⟩ edits).fs p = _
    rw [h2]
    cases hl : lastTouch repo_dir edits p with
    | some v =>
      rw [hl] at h1
      exact h1.symm
    | none => rfl
  · show List.foldl (apply_one repo_dir)
        (apply_one repo_dir ⟨[], [], [], fs⟩ e) rest = _
    have hone : apply_one repo_dir ⟨[], [], [], fs⟩ e
        = ⟨[], [], [e.path], fs⟩ := by
      unfold apply_one
      rw [hj, he]
      simp [habs]
    rw [hone, apply_fold_state repo_dir rest ⟨[], [], [e.path], fs⟩]
    simp

/-- Witness for C9: a two-edit list containing a create and a delete of an
absent file, applied twice over a one-file tree. -/
theorem C9_apply_changes_idempotent_witness :
    fsGet (apply_changes "/workspace/jobs/1/repo"
        (apply_changes "/workspace/jobs/1/repo"
          [("/workspace/jobs/1/repo/a.py", "old\n")]
          [⟨.create, "a.py", "new"⟩, ⟨.delete, "gone.py", ""⟩]).fs
        [⟨.create, "a.py", "new"⟩, ⟨.delete, "gone.py", ""⟩]).fs
        "/workspace/jobs/1/repo/a.py"
      = fsGet (apply_changes "/workspace/jobs/1/repo"
          [("/workspace/jobs/1/repo/a.py", "old\n")]
          [⟨.create, "a.py", "new"⟩, ⟨.delete, "gone.py", ""⟩]).fs
          "/workspace/jobs/1/repo/a.py"
    ∧ apply_changes "/workspace/jobs/1/repo"
        [("/workspace/jobs/1/repo/a.py", "old\n")]
        (⟨.delete, "gone.py", ""⟩ :: [⟨.create, "a.py", "new"⟩])
        = { applied := (apply_changes "/workspace/jobs/1/repo"
              [("/workspace/jobs/1/repo/a.py", "old\n")]
              [⟨.create, "a.py", "new"⟩]).applied
            deleted := (apply_changes "/workspace/jobs/1/repo"
              [("/workspace/jobs/1/repo/a.py", "old\n")]
              [⟨.create, "a.py", "new"⟩]).deleted
            skipped := "gone.py" :: (apply_changes "/workspace/jobs/1/repo"
              [("/workspace/jobs/1/repo/a.py", "old\n")]
              [⟨.create, "a.py", "new"⟩]).skipped
            fs := (apply_changes "/workspace/jobs/1/repo"
              [("/workspace/jobs/1/repo/a.py", "old\n")]
              [⟨.create, "a.py", "new"⟩]).fs } :=
  C9_apply_changes_idempotent "/workspace/jobs/1/repo"
    [("/workspace/jobs/1/repo/a.py", "old\n")]
    [⟨.create, "a.py", "new"⟩, ⟨.delete, "gone.py", ""⟩]
    [⟨.create, "a.py", "new"⟩]
    "/workspace/jobs/1/repo/a.py"
    ⟨.delete, "gone.py", ""⟩
    "/workspace/jobs/1/repo/gone.py"
    rfl rfl (by decide)

theorem safe_join_inRepo {repo_dir p target : String}
    (h : safe_join repo_dir p = .ok target) : inRepo repo_dir target = true := by
  unfold safe_join at h
  by_cases hc : (abspath (os_join repo_dir p) == abspath repo_dir
      || (abspath repo_dir ++ "/").data.isPrefixOf
           (abspath (os_join repo_dir p)).data) = true
  · rw [if_pos hc] at h
    have h2 : target = abspath (os_join repo_dir p) := by
      injection h with h3
      exact h3.symm
    rw [h2]
    exact hc
  · rw [if_neg hc] at h
    exact Except.noConfusion h

theorem lastTouch_none_of_outside (repo_dir p : String)
    (hout : inRepo repo_dir p = false) :
    ∀ edits : List FileEdit, lastTouch repo_dir edits p = none := by
  intro edits
  induction edits with
  | nil => rfl
  | cons e es ih =>
    unfold lastTouch
    rw [ih]
    cases he : editEffect repo_dir e with
    | none => rfl
    | some cv =>
      obtain ⟨c, v⟩ := cv
      have hc : inRepo repo_dir c = true := by
        unfold editEffect at he
        cases hs : safe_join repo_dir e.path with
        | error m =>
          rw [hs] at he
          simp at he
        | ok target =>
          rw [hs] at he
          cases ha : e.action with
          | delete =>
            rw [ha] at he
            have h2 : (target, (none : Option String)) = (c, v) := by
              injection he
            have h3 : target = c := congrArg Prod.fst h2
            rw [← h3]
            exact safe_join_inRepo hs
          | create =>
            rw [ha] at he
            have h2 : (target, some (ensure_trailing_newline e.content))
                = (c, v) := by
              injection he
            have h3 : target = c := congrArg Prod.fst h2
            rw [← h3]
            exact safe_join_inRepo hs
          | modify =>
            rw [ha] at he
            have h2 : (target, some (ensure_trailing_newline e.content))
                = (c, v) := by
              injection he
            have h3 : target = c := congrArg Prod.fst h2
            rw [← h3]
            exact safe_join_inRepo hs
      have hcp : ¬ c = p := by
        intro hEq
        rw [hEq, hout] at hc
        exact Bool.noConfusion hc
      simp [hcp]

/-- C10: `apply_changes` never writes or deletes outside the repository
root — every path not under `repo_dir` has identical contents before and
after the whole edit list is applied; and an edit rejected by `_safe_join`
performs no filesystem operation, is recorded in `skipped_files`, and the
remaining edits are still processed. -/
theorem C10_no_write_outside_repo (repo_dir : String) (fs : Fs)
    (edits rest : List FileEdit) (p : String) (e : FileEdit) (msg : String)
    (hout : inRepo repo_dir p = false)
    (hj : safe_join repo_dir e.path = .error msg) :
    fsGet (apply_changes repo_dir fs edits).fs p = fsGet fs p
    ∧ apply_changes repo_dir fs (e :: rest)
        = { applied := (apply_changes repo_dir fs rest).applied
            deleted := (apply_changes repo_dir fs rest).deleted
            skipped := e.path :: (apply_changes repo_dir fs rest).skipped
            fs := (apply_changes repo_dir fs rest).fs } := by
  constructor
  · have h1 := apply_fold_lookup repo_dir edits ⟨[], [], [], fs⟩ p
    rw [lastTouch_none_of_outside repo_dir p hout edits] at h1
    exact h1
  · show List.foldl (apply_one repo_dir)
        (apply_one repo_dir ⟨[], [], [], fs⟩ e) rest = _
    have hone : apply_one repo_dir ⟨[], [], [], fs⟩ e
        = ⟨[], [], [e.path], fs⟩ := by
      unfold apply_one
      rw [hj]
      simp
    rw [hone, apply_fold_state repo_dir rest ⟨[], [], [e.path], fs⟩]
    simp

/-- Witness for C10: an edit whose path escapes via `..` is skipped while
the rest is applied, and an outside path is untouched. -/
theorem C10_no_write_outside_repo_witness :
    fsGet (apply_changes "/workspace/jobs/1/repo" [("/etc/passwd", "x\n")]
        [⟨.create, "../../evil.py", "boom"⟩, ⟨.create, "ok.py", "fine"⟩]).fs
        "/etc/passwd"
      = fsGet [("/etc/passwd", "x\n")] "/etc/passwd"
    ∧ apply_changes "/workspace/jobs/1/repo" [("/etc/passwd", "x\n")]
        (⟨.create, "../../evil.py", "boom"⟩ :: [⟨.create, "ok.py", "fine"⟩])
        = { applied := (apply_changes "/workspace/jobs/1/repo"
              [("/etc/passwd", "x\n")] [⟨.create, "ok.py", "fine"⟩]).applied
            deleted := (apply_changes "/workspace/jobs/1/repo"
              [("/etc/passwd", "x\n")] [⟨.create, "ok.py", "fine"⟩]).deleted
            skipped := "../../evil.py" :: (apply_changes "/workspace/jobs/1/repo"
              [("/etc/passwd", "x\n")] [⟨.create, "ok.py", "fine"⟩]).skipped
            fs := (apply_changes "/workspace/jobs/1/repo"
              [("/etc/passwd", "x\n")] [⟨.create, "ok.py", "fine"⟩]).fs } :=
  C10_no_write_outside_repo "/workspace/jobs/1/repo" [("/etc/passwd", "x\n")]
    [⟨.create, "../../evil.py", "boom"⟩, ⟨.create, "ok.py", "fine"⟩]
    [⟨.create, "ok.py", "fine"⟩] "/etc/passwd"
    ⟨.create, "../../evil.py", "boom"⟩ "Refusing to write outside repo"
    (by decide) rfl

end StrandsDemo
